import Mathlib

/-!
Verification of the receipt-extraction core of the repository:
the Gemini receipt service (two-stage validate/extract pipeline),
the Redux orchestrator slice (history cap, failure frame), and the
currency helpers (formatCurrency, detectCurrencyFromLocation).

JavaScript strings are modelled as `String`/`List Char`; JSON values as
`JValue` with rational numbers; thrown exceptions as `Except String`;
the non-deterministic external model as a `ModelEnv` record supplying
the outcome of each external call.
-/

/-- JSON values as produced by `JSON.parse` (numbers as exact rationals). -/
inductive JValue where
  | null
  | bool (b : Bool)
  | num (q : ℚ)
  | str (s : String)
  | arr (elems : List JValue)
  | obj (fields : List (String × JValue))

/-- Whitespace characters recognised by the JavaScript runtime
(`String.prototype.trim`, regex `\s`); ASCII approximation. -/
def jsWsChars : List Char := [' ', '\t', '\n', '\r', '\x0B', '\x0C']

def isJsWs (c : Char) : Bool := jsWsChars.contains c

/-- `a.startsWith b` on character lists. -/
def jsStartsWith : List Char → List Char → Bool
  | _, [] => true
  | [], _ :: _ => false
  | c :: cs, p :: ps => decide (c = p) && jsStartsWith cs ps

/-- `a.includes b` (substring containment) on character lists. -/
def containsSub (s sub : List Char) : Bool :=
  match s with
  | [] => sub.isEmpty
  | _ :: cs => jsStartsWith s sub || containsSub cs sub

/-- `String.prototype.trim` on character lists. -/
def jsTrim (s : List Char) : List Char :=
  ((s.dropWhile isJsWs).reverse.dropWhile isJsWs).reverse

/-- `a.endsWith b` on character lists. -/
def jsEndsWith (s suf : List Char) : Bool :=
  jsStartsWith s.reverse suf.reverse

/-- `toLowerCase` (ASCII model). -/
def jsToLower (s : String) : String := String.mk (s.toList.map Char.toLower)

/-- `toUpperCase` (ASCII model). -/
def jsToUpper (s : String) : String := String.mk (s.toList.map Char.toUpper)

/-- Drop `n` characters from the end of the list. -/
def dropSuffix (s : List Char) (n : Nat) : List Char :=
  (s.reverse.drop n).reverse

/-- Drop a single leading newline if present (models the `\n?` part of the
fence-stripping regexes, whose leftmost match starts at position 0 because
the branch guard established the fence at position 0). -/
def dropOneNl : List Char → List Char
  | '\n' :: r => r
  | s => s

/-- Models `text.replace(/\n?```$/, '')`: the regex is anchored at the end of
the string, so it removes a trailing "\n```" (preferred, leftmost) or a
trailing "```", and leaves the string unchanged otherwise. -/
def stripFenceEnd (s : List Char) : List Char :=
  if jsEndsWith s "\n```".toList then dropSuffix s 4
  else if jsEndsWith s "```".toList then dropSuffix s 3
  else s

/-- The response-text cleanup performed by `extractReceiptData` before JSON
parsing: trim, then strip surrounding ```json / ``` code-fence markers. -/
def cleanupChars (cs : List Char) : List Char :=
  let s := jsTrim cs
  if jsStartsWith s "```json".toList then stripFenceEnd (dropOneNl (s.drop 7))
  else if jsStartsWith s "```".toList then stripFenceEnd (dropOneNl (s.drop 3))
  else s

/-! ### A model of `JSON.parse` -/

def skipJWs (cs : List Char) : List Char := cs.dropWhile isJsWs

def hexVal (c : Char) : Option Nat :=
  if c.isDigit then some (c.toNat - 48)
  else if 'a' ≤ c && c ≤ 'f' then some (c.toNat - 87)
  else if 'A' ≤ c && c ≤ 'F' then some (c.toNat - 55)
  else none

/-- Parse the body of a JSON string after the opening quote. -/
def parseJStr : List Char → Option (List Char × List Char)
  | '"' :: rest => some ([], rest)
  | '\\' :: '"' :: r => (parseJStr r).map (fun p => ('"' :: p.1, p.2))
  | '\\' :: '\\' :: r => (parseJStr r).map (fun p => ('\\' :: p.1, p.2))
  | '\\' :: '/' :: r => (parseJStr r).map (fun p => ('/' :: p.1, p.2))
  | '\\' :: 'b' :: r => (parseJStr r).map (fun p => ('\x08' :: p.1, p.2))
  | '\\' :: 'f' :: r => (parseJStr r).map (fun p => ('\x0C' :: p.1, p.2))
  | '\\' :: 'n' :: r => (parseJStr r).map (fun p => ('\n' :: p.1, p.2))
  | '\\' :: 'r' :: r => (parseJStr r).map (fun p => ('\r' :: p.1, p.2))
  | '\\' :: 't' :: r => (parseJStr r).map (fun p => ('\t' :: p.1, p.2))
  | '\\' :: 'u' :: a :: b :: c :: d :: r =>
    match hexVal a, hexVal b, hexVal c, hexVal d with
    | some x, some y, some z, some w =>
      (parseJStr r).map (fun p => (Char.ofNat (((x * 16 + y) * 16 + z) * 16 + w) :: p.1, p.2))
    | _, _, _, _ => none
  | '\\' :: _ => none
  | c :: r => if c.toNat < 32 then none else (parseJStr r).map (fun p => (c :: p.1, p.2))
  | [] => none

def digitsToNat (ds : List Char) : Nat :=
  ds.foldl (fun a c => a * 10 + (c.toNat - 48)) 0

/-- Parse the integer part of a JSON number ('0', or a nonzero digit followed
by digits); returns its value and the remaining input. -/
def parseJInt : List Char → Option (Nat × List Char)
  | '0' :: r => some (0, r)
  | c :: r =>
    if c.isDigit then
      some (digitsToNat (c :: r.takeWhile Char.isDigit), r.dropWhile Char.isDigit)
    else none
  | [] => none

def applyJExp (base : ℚ) (r : List Char) : Option (ℚ × List Char) :=
  let p := match r with
    | '-' :: rr => (true, rr)
    | '+' :: rr => (false, rr)
    | _ => (false, r)
  let eds := p.2.takeWhile Char.isDigit
  if eds.isEmpty then none
  else
    let e := digitsToNat eds
    some (if p.1 then base / (10 ^ e) else base * (10 ^ e), p.2.dropWhile Char.isDigit)

/-- Parse a JSON number. -/
def parseJNum (cs : List Char) : Option (ℚ × List Char) :=
  let sp := match cs with
    | '-' :: r => (true, r)
    | _ => (false, cs)
  match parseJInt sp.2 with
  | none => none
  | some (ip, cs2) =>
    let fp : Option (ℚ × List Char) :=
      match cs2 with
      | '.' :: r =>
        let fds := r.takeWhile Char.isDigit
        if fds.isEmpty then none
        else some ((ip : ℚ) + (digitsToNat fds : ℚ) / (10 ^ fds.length), r.dropWhile Char.isDigit)
      | _ => some ((ip : ℚ), cs2)
    match fp with
    | none => none
    | some (q, cs3) =>
      let eq : ℚ × List Char :=
        match cs3 with
        | 'e' :: r => match applyJExp q r with
          | some p => p
          | none => (q, cs3)
        | 'E' :: r => match applyJExp q r with
          | some p => p
          | none => (q, cs3)
        | _ => (q, cs3)
      -- NB JSON requires digits after an exponent marker; a bare trailing
      -- 'e' is left in the remainder and rejected by the top level.
      some (if sp.1 then -eq.1 else eq.1, eq.2)

mutual

def parseJVal : Nat → List Char → Option (JValue × List Char)
  | 0, _ => none
  | fuel + 1, cs =>
    match skipJWs cs with
    | 'n' :: 'u' :: 'l' :: 'l' :: r => some (JValue.null, r)
    | 't' :: 'r' :: 'u' :: 'e' :: r => some (JValue.bool true, r)
    | 'f' :: 'a' :: 'l' :: 's' :: 'e' :: r => some (JValue.bool false, r)
    | '"' :: r => (parseJStr r).map (fun p => (JValue.str (String.mk p.1), p.2))
    | '[' :: r =>
      (match skipJWs r with
       | ']' :: r2 => some (JValue.arr [], r2)
       | r2 => (parseJElems fuel r2).map (fun p => (JValue.arr p.1, p.2)))
    | '{' :: r =>
      (match skipJWs r with
       | '}' :: r2 => some (JValue.obj [], r2)
       | r2 => (parseJMembers fuel r2).map (fun p => (JValue.obj p.1, p.2)))
    | cs2 => (parseJNum cs2).map (fun p => (JValue.num p.1, p.2))

def parseJElems : Nat → List Char → Option (List JValue × List Char)
  | 0, _ => none
  | fuel + 1, cs =>
    match parseJVal fuel cs with
    | none => none
    | some (v, rest) =>
      match skipJWs rest with
      | ',' :: r2 => (parseJElems fuel r2).map (fun p => (v :: p.1, p.2))
      | ']' :: r2 => some ([v], r2)
      | _ => none

def parseJMembers : Nat → List Char → Option (List (String × JValue) × List Char)
  | 0, _ => none
  | fuel + 1, cs =>
    match skipJWs cs with
    | '"' :: r =>
      (match parseJStr r with
       | none => none
       | some (key, rest) =>
         match skipJWs rest with
         | ':' :: r2 =>
           (match parseJVal fuel r2 with
            | none => none
            | some (v, rest2) =>
              match skipJWs rest2 with
              | ',' :: r3 => (parseJMembers fuel r3).map (fun p => ((String.mk key, v) :: p.1, p.2))
              | '}' :: r3 => some ([(String.mk key, v)], r3)
              | _ => none)
         | _ => none)
    | _ => none

end

/-- Model of `JSON.parse`: `none` means a SyntaxError was thrown. -/
def jsonParse (cs : List Char) : Option JValue :=
  match parseJVal (cs.length + 2) cs with
  | some (v, rest) => if (skipJWs rest).isEmpty then some v else none
  | none => none

/-! ### JavaScript value semantics on parsed JSON -/

/-- JavaScript truthiness of a parsed JSON value. -/
def JValue.truthy : JValue → Bool
  | .null => false
  | .bool b => b
  | .num q => !(decide (q = 0))
  | .str s => !(decide (s = ""))
  | .arr _ => true
  | .obj _ => true

/-- `v || fallback` for JavaScript values. -/
def jsOr (v fallback : JValue) : JValue := if v.truthy then v else fallback

/-- Object field lookup; for duplicate keys `JSON.parse` keeps the last one. -/
def lookupField (fs : List (String × JValue)) (key : String) : JValue :=
  match fs.reverse.find? (fun kv => kv.fst == key) with
  | some kv => kv.snd
  | none => JValue.null

/-- Property access `v[key]` where `v` is known non-null: objects yield the
field (or undefined, conflated with null — both are falsy and fail the
`typeof x === 'string'` tests the code performs); primitives and arrays
yield undefined. -/
def getField : JValue → String → JValue
  | .obj fs, key => lookupField fs key
  | _, _ => JValue.null

/-- Property access that models the TypeError thrown when the base is null. -/
def getFieldE : JValue → String → Except String JValue
  | .null, _ => Except.error "TypeError: Cannot read properties of null"
  | v, key => Except.ok (getField v key)

def isStringJ : JValue → Bool
  | .str _ => true
  | _ => false

def JValue.isArr : JValue → Bool
  | .arr _ => true
  | _ => false

/-! ### Data model (src/types, as used by the service) -/

/-- Legacy product mirror built from an item
(`{name, price, quantity, total: price}`). -/
structure LegacyProduct where
  name : JValue
  price : JValue
  quantity : JValue
  total : JValue

/-- The canonical receipt record assembled by `extractReceiptData`
(new-format fields plus legacy mirror fields). -/
structure ReceiptData where
  id : String
  storeName : JValue
  address : JValue
  phone : JValue
  date : JValue
  items : List JValue
  total : JValue
  tax : JValue
  timestamp : String
  fileName : String
  totalItems : JValue
  currency : JValue
  products : List LegacyProduct
  total_spending : JValue
  extraction_date : String
  file_name : String

/-- The discriminated result of `extractReceiptData`
(`{success: true, data}` / `{success: false, error}`). -/
inductive ApiResponse where
  | success (data : ReceiptData)
  | failure (error : String)

/-! ### The Gemini service (src/services/geminiService.ts) -/

/-- One extraction attempt's interaction with the outside world: whether the
service was initialized, the outcome of reading the file, and the outcome of
each of the two model calls (`Except.error` = the call threw;
`Except.ok none` = no text in the response). `idString`/`timestamp` stand for
the id and ISO timestamp generated at extraction time. -/
structure ModelEnv where
  initialized : Bool
  fileBase64 : Except String String
  fileName : String
  validationResponse : Except String (Option String)
  extractionResponse : Except String (Option String)
  idString : String
  timestamp : String

structure ValidationResult where
  isValid : Bool
  reason : Option String

def unableMsg : String := "Unable to analyze image. Please try with a clearer image."

def notReceiptMsg : String :=
  "This image does not appear to be a payment receipt. Please upload a receipt, invoice, or bill."

def unclearMsg : String :=
  "The image is too unclear to process. Please upload a clearer image of your receipt."

def undeterminedMsg : String :=
  "Unable to determine if this is a valid receipt. Please try with a clearer receipt image."

def failedValidateMsg : String := "Failed to validate image. Please try again."

/-- The body of `validateReceiptImage`'s try-block. -/
def validateAttempt (env : ModelEnv) : Except String ValidationResult :=
  if env.initialized = false then Except.error "Gemini service not initialized"
  else match env.fileBase64 with
  | Except.error e => Except.error e
  | Except.ok _ =>
    match env.validationResponse with
    | Except.error e => Except.error e
    | Except.ok none => Except.ok ⟨false, some unableMsg⟩
    | Except.ok (some t) =>
      let vt := jsTrim t.toList
      if vt.isEmpty then Except.ok ⟨false, some unableMsg⟩
      else if containsSub vt "VALID_RECEIPT".toList then Except.ok ⟨true, none⟩
      else if containsSub vt "NOT_RECEIPT".toList then
        Except.ok ⟨false, some notReceiptMsg⟩
      else if containsSub vt "UNCLEAR_IMAGE".toList then
        Except.ok ⟨false, some unclearMsg⟩
      else Except.ok ⟨false, some undeterminedMsg⟩

/-- `validateReceiptImage`: any thrown error is caught and converted into an
invalid result with a fixed reason. -/
def validateReceiptImage (env : ModelEnv) : ValidationResult :=
  match validateAttempt env with
  | Except.ok r => r
  | Except.error _ => ⟨false, some failedValidateMsg⟩

def invalidItemMsg : String := "Invalid item format in response"

def missingItemsMsg : String := "Invalid response format: missing items array"

def noTextMsg : String := "No text content received from AI response"

def parseFailMsg : String := "Failed to parse AI response as JSON"

/-- Validation of one item: `typeof item.name/price/quantity === 'string'`,
short-circuit order as in the source. -/
def checkItem (item : JValue) : Except String Unit :=
  match getFieldE item "name" with
  | Except.error e => Except.error e
  | Except.ok n =>
    if isStringJ n = false then Except.error invalidItemMsg
    else match getFieldE item "price" with
    | Except.error e => Except.error e
    | Except.ok p =>
      if isStringJ p = false then Except.error invalidItemMsg
      else match getFieldE item "quantity" with
      | Except.error e => Except.error e
      | Except.ok q =>
        if isStringJ q = false then Except.error invalidItemMsg else Except.ok ()

def checkItems : List JValue → Except String Unit
  | [] => Except.ok ()
  | it :: rest =>
    match checkItem it with
    | Except.error e => Except.error e
    | Except.ok _ => checkItems rest

def mkProduct (item : JValue) : LegacyProduct :=
  { name := getField item "name"
    price := getField item "price"
    quantity := getField item "quantity"
    total := getField item "price" }

/-- Assembly of the final receipt record (lines 313–338 of the service):
each model field is copied through with a `|| fallback`. -/
def mkReceiptData (env : ModelEnv) (data : JValue) (items : List JValue) : ReceiptData :=
  { id := env.idString
    storeName := jsOr (getField data "storeName") JValue.null
    address := jsOr (getField data "address") JValue.null
    phone := jsOr (getField data "phone") JValue.null
    date := jsOr (getField data "date") JValue.null
    items := items
    total := jsOr (getField data "total") JValue.null
    tax := jsOr (getField data "tax") JValue.null
    timestamp := env.timestamp
    fileName := env.fileName
    totalItems := jsOr (getField data "totalItems") JValue.null
    currency := jsOr (getField data "currency") (JValue.str "USD")
    products := items.map mkProduct
    total_spending := jsOr (getField data "total") (JValue.num 0)
    extraction_date := env.timestamp
    file_name := env.fileName }

/-- Structural validation and record assembly on the parsed payload.
`!extractedData.items || !Array.isArray(extractedData.items)` throws the
missing-items message in both branches, so it is modelled as a single match
on the array constructor. -/
def buildReceipt (env : ModelEnv) (data : JValue) : Except String ReceiptData :=
  match getFieldE data "items" with
  | Except.error e => Except.error e
  | Except.ok (JValue.arr items) =>
    (match checkItems items with
     | Except.error e => Except.error e
     | Except.ok _ => Except.ok (mkReceiptData env data items))
  | Except.ok _ => Except.error missingItemsMsg

/-- The extraction-stage work performed after the second model call returned
(lines 265–343): text check, cleanup, JSON parse, schema validation,
assembly. -/
def extractAttempt (env : ModelEnv) : Except String ReceiptData :=
  match env.extractionResponse with
  | Except.error e => Except.error e
  | Except.ok none => Except.error noTextMsg
  | Except.ok (some t) =>
    if t = "" then Except.error noTextMsg
    else match jsonParse (cleanupChars t.toList) with
    | none => Except.error parseFailMsg
    | some data => buildReceipt env data

def notInitializedMsg : String := "Gemini service not initialized. Please provide API key."

/-- `extractReceiptData` of the Gemini service. The second component of the
result records whether the second (extraction-stage) model call was issued.
The surrounding try/catch is modelled by converting every internal
`Except.error` into an `ApiResponse.failure` carrying the error message. -/
def extractReceiptData (env : ModelEnv) : ApiResponse × Bool :=
  if env.initialized = false then (ApiResponse.failure notInitializedMsg, false)
  else
    let validation := validateReceiptImage env
    if validation.isValid = false then
      let r := validation.reason.getD ""
      (ApiResponse.failure (if r = "" then "Invalid receipt image" else r), false)
    else
      match env.fileBase64 with
      | Except.error e => (ApiResponse.failure e, false)
      | Except.ok _ =>
        -- the second generateContent call is issued exactly here
        match extractAttempt env with
        | Except.ok d => (ApiResponse.success d, true)
        | Except.error e => (ApiResponse.failure e, true)

/-! ### The orchestrator slice (src/store/receiptSlice.ts) -/

structure ExtractionState where
  isLoading : Bool
  isProcessing : Bool
  data : Option ReceiptData
  currentExtraction : Option ReceiptData
  error : Option String
  progress : Nat
  history : List ReceiptData

/-- `[x, ...state.history.slice(0, 9)]` — the insertion performed both by the
`extractReceiptData.fulfilled` case and by the `saveToHistory` reducer. -/
def addToHistory (d : ReceiptData) (h : List ReceiptData) : List ReceiptData :=
  d :: h.take 9

def pendingReducer (s : ExtractionState) : ExtractionState :=
  { s with isLoading := true, isProcessing := true, error := none, progress := 0 }

def fulfilledReducer (s : ExtractionState) (payload : ReceiptData) : ExtractionState :=
  { s with isLoading := false, isProcessing := false, data := some payload,
           currentExtraction := some payload, error := none, progress := 100,
           history := addToHistory payload s.history }

def rejectedReducer (s : ExtractionState) (errMsg : String) : ExtractionState :=
  { s with isLoading := false, isProcessing := false, error := some errMsg, progress := 0 }

def saveToHistory (s : ExtractionState) : ExtractionState :=
  match s.data with
  | some d => { s with history := addToHistory d s.history }
  | none => s

/-- The `extractReceiptData` async thunk: initializes the service (throwing
when the api key is empty), runs the extraction, and rejects with the error
message on any failure. -/
def runExtractThunk (apiKey : String) (env : ModelEnv) : Except String ReceiptData :=
  if apiKey = "" then Except.error "Gemini API key is required"
  else
    match (extractReceiptData { env with initialized := true }).fst with
    | ApiResponse.success d => Except.ok d
    | ApiResponse.failure e =>
      Except.error (if e = "" then "Failed to extract receipt data" else e)

/-- One full dispatch cycle of the thunk: pending, then fulfilled/rejected.
Intermediate `updateProgress` dispatches are overwritten by the settled
case's progress value and do not affect the final state. -/
def dispatchExtract (apiKey : String) (env : ModelEnv) (s : ExtractionState) : ExtractionState :=
  let s1 := pendingReducer s
  match runExtractThunk apiKey env with
  | Except.ok d => fulfilledReducer s1 d
  | Except.error e => rejectedReducer s1 e

/-! ### Currency helpers (src/common/helpers.ts) -/

/-- A JavaScript number restricted to the values this code can produce:
NaN or an exact rational. -/
inductive JSNum where
  | nan
  | val (q : ℚ)

/-- The `number | string` amount accepted by `formatCurrency`. -/
inductive JSAmount where
  | num (n : JSNum)
  | str (s : String)

/-- Model of `parseFloat`: skip leading whitespace, optional sign, decimal
digits with optional fraction and exponent; NaN when no digits are found. -/
def parseFloatM (s : String) : JSNum :=
  let cs := s.toList.dropWhile isJsWs
  let sp := match cs with
    | '-' :: r => (true, r)
    | '+' :: r => (false, r)
    | _ => (false, cs)
  let intDs := sp.2.takeWhile Char.isDigit
  let cs2 := sp.2.dropWhile Char.isDigit
  let fp := match cs2 with
    | '.' :: r => (r.takeWhile Char.isDigit, r.dropWhile Char.isDigit)
    | _ => ([], cs2)
  if intDs.isEmpty && fp.1.isEmpty then JSNum.nan
  else
    let base : ℚ := (digitsToNat intDs : ℚ) + (digitsToNat fp.1 : ℚ) / (10 ^ fp.1.length)
    let withExp : ℚ := match fp.2 with
      | 'e' :: r => match applyJExp base r with
        | some p => p.1
        | none => base
      | 'E' :: r => match applyJExp base r with
        | some p => p.1
        | none => base
      | _ => base
    JSNum.val (if sp.1 then -withExp else withExp)

/-- The `typeof amount === 'string' ? parseFloat(amount) : amount` coercion. -/
def coerceAmount : JSAmount → JSNum
  | JSAmount.num n => n
  | JSAmount.str s => parseFloatM s

/-- The static currency → locale table. -/
def CURRENCY_LOCALE_MAP : List (String × String) :=
  [("USD", "en-US"), ("EUR", "de-DE"), ("GBP", "en-GB"), ("JPY", "ja-JP"),
   ("CAD", "en-CA"), ("AUD", "en-AU"), ("CHF", "de-CH"), ("CNY", "zh-CN"),
   ("INR", "en-IN"), ("KRW", "ko-KR"), ("SGD", "en-SG"), ("HKD", "en-HK"),
   ("MXN", "es-MX"), ("BRL", "pt-BR"), ("RUB", "ru-RU"), ("SEK", "sv-SE"),
   ("NOK", "nb-NO"), ("DKK", "da-DK"), ("PLN", "pl-PL"), ("CZK", "cs-CZ"),
   ("HUF", "hu-HU"), ("RON", "ro-RO"), ("BGN", "bg-BG"), ("HRK", "hr-HR"),
   ("TRY", "tr-TR"), ("ILS", "he-IL"), ("AED", "ar-AE"), ("SAR", "ar-SA"),
   ("THB", "th-TH"), ("VND", "vi-VN"), ("IDR", "id-ID"), ("MYR", "ms-MY"),
   ("PHP", "en-PH"), ("TWD", "zh-TW"), ("NZD", "en-NZ"), ("ZAR", "en-ZA"),
   ("EGP", "ar-EG"), ("NGN", "en-NG"), ("KES", "sw-KE"), ("GHS", "en-GH"),
   ("MAD", "ar-MA"), ("TND", "ar-TN"), ("JOD", "ar-JO"), ("LBP", "ar-LB"),
   ("QAR", "ar-QA"), ("KWD", "ar-KW"), ("BHD", "ar-BH"), ("OMR", "ar-OM")]

/-- `CURRENCY_LOCALE_MAP[code] || 'en-US'`. -/
def lookupLocale (code : String) : String :=
  match CURRENCY_LOCALE_MAP.find? (fun p => p.fst == code) with
  | some p => p.snd
  | none => "en-US"

/-- Well-formedness check ECMA-402 applies to the `currency` option: three
ASCII letters; `Intl.NumberFormat` throws a RangeError otherwise. -/
def isWellFormedCurrency (c : String) : Bool :=
  c.length == 3 && c.toList.all Char.isAlpha

def digitChar (n : Nat) : Char :=
  match n with
  | 0 => '0' | 1 => '1' | 2 => '2' | 3 => '3' | 4 => '4'
  | 5 => '5' | 6 => '6' | 7 => '7' | 8 => '8' | _ => '9'

def natToCharsAux : Nat → Nat → List Char
  | 0, _ => []
  | fuel + 1, n => if n = 0 then [] else natToCharsAux fuel (n / 10) ++ [digitChar (n % 10)]

def natToChars (n : Nat) : List Char :=
  if n = 0 then ['0'] else natToCharsAux (n + 1) n

/-- Decimal rendering of a rational rounded to cents, with exactly two
fraction digits. -/
def ratToMoneyChars (q : ℚ) : List Char :=
  let cents : ℤ := round (q * 100)
  let a : Nat := cents.natAbs
  (if cents < 0 then ['-'] else []) ++ natToChars (a / 100)
    ++ '.' :: digitChar (a % 100 / 10) :: [digitChar (a % 10)]

/-- Modelled from the spec: the underlying formatting primitive
(`Intl.NumberFormat(locale, {style:'currency', currency, minimumFractionDigits:2,
maximumFractionDigits:2}).format`), which is a platform builtin, not
repository code. Per the spec it formats with exactly two fraction digits and
rejects (throws on construction, modelled as `none`) an unsupported/invalid
ISO code. The currency symbol is modelled as the code itself and the locale
only selects the (unmodelled) presentation, so it is ignored. -/
def intlFormatCC (_locale : String) (currency : String) (q : ℚ) : Option (List Char) :=
  if isWellFormedCurrency currency then some (currency.toList ++ ' ' :: ratToMoneyChars q)
  else none

/-- `formatCurrency` on character lists. -/
def formatCurrencyChars (amount : JSAmount) (currencyCode : String) : List Char :=
  match coerceAmount amount with
  | JSNum.nan => ['N', '/', 'A']
  | JSNum.val q =>
    let locale := lookupLocale (jsToUpper currencyCode)
    match intlFormatCC locale (jsToUpper currencyCode) q with
    | some s => s
    | none =>
      match intlFormatCC "en-US" "USD" q with
      | some s => s
      | none => []

/-- `formatCurrency(amount, currencyCode)` of src/common/helpers.ts. -/
def formatCurrency (amount : JSAmount) (currencyCode : String) : String :=
  String.mk (formatCurrencyChars amount currencyCode)

/-- `!address` / `!language` for optional string arguments
(undefined and the empty string are falsy). -/
def jsFalsyStrOpt : Option String → Bool
  | none => true
  | some s => s == ""

/-- One alternative of a country/region regex: a literal, and whether the
source pattern requires a whitespace character (`\s`) right after it. -/
def matchAlt (s : List Char) (alt : String × Bool) : Bool :=
  if alt.snd then jsWsChars.any (fun w => containsSub s (alt.fst.toList ++ [w]))
  else containsSub s alt.fst.toList

def matchesPattern (s : List Char) (alts : List (String × Bool)) : Bool :=
  alts.any (matchAlt s)

/-- The ordered pattern list of `detectCurrencyFromLocation`; each regex
alternation is transcribed alternative by alternative. -/
def currencyPatterns : List (List (String × Bool) × String) :=
  [([("usa", false), ("united states", false), ("america", false), ("us", true),
     ("u.s.", false), ("canada", false), ("ca", true)], "USD"),
   ([("canada", false), ("canadian", false), ("ca", true)], "CAD"),
   ([("germany", false), ("deutschland", false), ("de", true), ("berlin", false),
     ("munich", false), ("hamburg", false)], "EUR"),
   ([("france", false), ("french", false), ("fr", true), ("paris", false),
     ("lyon", false), ("marseille", false)], "EUR"),
   ([("italy", false), ("italian", false), ("it", true), ("rome", false),
     ("milan", false), ("napoli", false)], "EUR"),
   ([("spain", false), ("spanish", false), ("es", true), ("madrid", false),
     ("barcelona", false), ("valencia", false)], "EUR"),
   ([("netherlands", false), ("holland", false), ("nl", true), ("amsterdam", false)], "EUR"),
   ([("uk", false), ("united kingdom", false), ("britain", false), ("gb", true),
     ("london", false), ("manchester", false)], "GBP"),
   ([("switzerland", false), ("swiss", false), ("ch", true), ("zurich", false),
     ("geneva", false)], "CHF"),
   ([("japan", false), ("japanese", false), ("jp", true), ("tokyo", false),
     ("osaka", false), ("kyoto", false)], "JPY"),
   ([("china", false), ("chinese", false), ("cn", true), ("beijing", false),
     ("shanghai", false), ("guangzhou", false)], "CNY"),
   ([("india", false), ("indian", false), ("in", true), ("mumbai", false),
     ("delhi", false), ("bangalore", false)], "INR"),
   ([("korea", false), ("korean", false), ("kr", true), ("seoul", false),
     ("busan", false)], "KRW"),
   ([("singapore", false), ("sg", true)], "SGD"),
   ([("hong kong", false), ("hk", true)], "HKD"),
   ([("thailand", false), ("thai", false), ("th", true), ("bangkok", false)], "THB"),
   ([("vietnam", false), ("vietnamese", false), ("vn", true), ("hanoi", false),
     ("ho chi minh", false)], "VND"),
   ([("indonesia", false), ("indonesian", false), ("id", true), ("jakarta", false)], "IDR"),
   ([("malaysia", false), ("malaysian", false), ("my", true), ("kuala lumpur", false)], "MYR"),
   ([("philippines", false), ("filipino", false), ("ph", true), ("manila", false)], "PHP"),
   ([("australia", false), ("australian", false), ("au", true), ("sydney", false),
     ("melbourne", false)], "AUD"),
   ([("new zealand", false), ("nz", true), ("auckland", false)], "NZD"),
   ([("uae", false), ("emirates", false), ("dubai", false), ("abu dhabi", false)], "AED"),
   ([("saudi", false), ("arabia", false), ("riyadh", false), ("jeddah", false)], "SAR"),
   ([("israel", false), ("israeli", false), ("il", true), ("tel aviv", false),
     ("jerusalem", false)], "ILS"),
   ([("south africa", false), ("za", true), ("johannesburg", false),
     ("cape town", false)], "ZAR"),
   ([("egypt", false), ("egyptian", false), ("eg", true), ("cairo", false)], "EGP"),
   ([("mexico", false), ("mexican", false), ("mx", true), ("mexico city", false)], "MXN"),
   ([("brazil", false), ("brazilian", false), ("br", true), ("sao paulo", false),
     ("rio", false)], "BRL")]

/-- First-match-wins scan over the fixed pattern list; `"USD"` by default. -/
def firstMatch : List (List (String × Bool) × String) → List Char → String
  | [], _ => "USD"
  | (p, cur) :: rest, s => if matchesPattern s p then cur else firstMatch rest s

/-- `detectCurrencyFromLocation(address?, language?)` of src/common/helpers.ts. -/
def detectCurrencyFromLocation (address language : Option String) : String :=
  if jsFalsyStrOpt address && jsFalsyStrOpt language then "USD"
  else
    let addressLower := jsToLower (address.getD "")
    let langLower := jsToLower (language.getD "")
    let searchText := addressLower ++ " " ++ langLower
    firstMatch currencyPatterns searchText.toList

/-! ### Auxiliary definitions used by the claim statements -/

/-- An item fails the per-item schema check: one of `name`, `price`,
`quantity` is not a string. -/
def badItemB (it : JValue) : Bool :=
  !(isStringJ (getField it "name")) || !(isStringJ (getField it "price"))
    || !(isStringJ (getField it "quantity"))

/-- The extraction payload violates the structural schema: its `items`
property reads back as a non-array value, or it is an array containing a
(non-null) item whose `name`, `price` or `quantity` is not a string. -/
def schemaViolation (data : JValue) : Prop :=
  (∃ v, getFieldE data "items" = Except.ok v ∧ ∀ its, v ≠ JValue.arr its) ∨
  (∃ items, getFieldE data "items" = Except.ok (JValue.arr items) ∧
    (∀ it ∈ items, it ≠ JValue.null) ∧ ∃ it ∈ items, badItemB it = true)

/-- Numeric coercion of a model-provided field, for the spec-side derivation. -/
def jnumOf (v : JValue) : ℚ :=
  match v with
  | JValue.num q => q
  | JValue.str s =>
    (match parseFloatM s with
     | JSNum.val q => q
     | JSNum.nan => 0)
  | _ => 0

/-- Definition following the spec's words, for comparison with the code:
"totalItems … derived by summing quantities of positive-price items only". -/
def specDerivedTotalItems (items : List JValue) : ℚ :=
  ((items.filter (fun it => decide (0 < jnumOf (getField it "price")))).map
    (fun it => jnumOf (getField it "quantity"))).sum

def receiptTotalItemsOf : ApiResponse → Option JValue
  | ApiResponse.success d => some d.totalItems
  | ApiResponse.failure _ => none

def receiptItemsOf : ApiResponse → Option (List JValue)
  | ApiResponse.success d => some d.items
  | ApiResponse.failure _ => none

/-- Concrete extraction response used as the refuting input for the
totalItems claim: a receipt with one positive-price item of quantity 2 and
no explicit totalItems field. -/
def c3Response : String :=
  "\x7b\"items\":[\x7b\"name\":\"Coffee\",\"quantity\":\"2\",\"unitPrice\":\"3.00\",\"price\":\"6.00\"\x7d],\"total\":\"6.00\",\"currency\":\"USD\"\x7d"

def c3Env : ModelEnv :=
  { initialized := true
    fileBase64 := Except.ok "base64bytes"
    fileName := "receipt.jpg"
    validationResponse := Except.ok (some "VALID_RECEIPT")
    extractionResponse := Except.ok (some c3Response)
    idString := "receipt_1"
    timestamp := "2026-01-01T00:00:00.000Z" }

/-- The single parsed item of `c3Response`. -/
def c3Item : JValue :=
  JValue.obj [("name", JValue.str "Coffee"), ("quantity", JValue.str "2"),
              ("unitPrice", JValue.str "3.00"), ("price", JValue.str "6.00")]

/-- The parsed items of `c3Response`. -/
def c3Items : List JValue := [c3Item]

/-- Environment whose extraction-stage response parses but has no `items`
field. -/
def c4Env : ModelEnv :=
  { c3Env with extractionResponse := Except.ok (some "\x7b\"foo\":\"bar\"\x7d") }

/-- Environment whose validation-stage response is `NOT_RECEIPT`. -/
def c1Env : ModelEnv :=
  { c3Env with validationResponse := Except.ok (some "NOT_RECEIPT") }

def blankReceipt : ReceiptData :=
  { id := "", storeName := JValue.null, address := JValue.null, phone := JValue.null,
    date := JValue.null, items := [], total := JValue.null, tax := JValue.null,
    timestamp := "", fileName := "", totalItems := JValue.null,
    currency := JValue.str "USD", products := [], total_spending := JValue.num 0,
    extraction_date := "", file_name := "" }

def mkRec (n : Nat) : ReceiptData := { blankReceipt with id := toString n }

def blankState : ExtractionState :=
  { isLoading := false, isProcessing := false, data := none, currentExtraction := none,
    error := none, progress := 0, history := [mkRec 100] }

/-! ## Helper lemmas -/

theorem addToHistory_eq_take (d : ReceiptData) (h : List ReceiptData) :
    addToHistory d h = (d :: h).take 10 := rfl

theorem take_append_take (a b : List ReceiptData) :
    (a ++ b.take 10).take 10 = (a ++ b).take 10 := by
  rw [List.take_append_eq_append_take, List.take_append_eq_append_take, List.take_take,
    Nat.min_eq_left (by omega)]

theorem foldl_addToHistory (ds : List ReceiptData) (h0 : List ReceiptData) (hne : ds ≠ []) :
    ds.foldl (fun h d => addToHistory d h) h0 = (ds.reverse ++ h0).take 10 := by
  induction ds generalizing h0 with
  | nil => exact absurd rfl hne
  | cons d ds ih =>
    cases ds with
    | nil => simp [addToHistory_eq_take]
    | cons e es =>
      rw [List.foldl_cons, ih (addToHistory d h0) (by simp), addToHistory_eq_take]
      rw [take_append_take]
      simp

theorem jsStartsWith_nil_right (s : List Char) : jsStartsWith s [] = true := by
  cases s <;> rfl

theorem jsStartsWith_append (p r : List Char) : jsStartsWith (p ++ r) p = true := by
  induction p with
  | nil => exact jsStartsWith_nil_right r
  | cons c cs ih => simp [jsStartsWith, ih]

theorem jsStartsWith_mono (s p q : List Char) (h : jsStartsWith s (p ++ q) = true) :
    jsStartsWith s p = true := by
  induction p generalizing s with
  | nil => exact jsStartsWith_nil_right s
  | cons c cs ih =>
    cases s with
    | nil => simp [jsStartsWith] at h
    | cons a as =>
      simp [jsStartsWith] at h ⊢
      exact ⟨h.1, ih as h.2⟩

theorem jsStartsWith_append_right (s p r : List Char) (h : jsStartsWith s p = true) :
    jsStartsWith (s ++ r) p = true := by
  induction p generalizing s with
  | nil => exact jsStartsWith_nil_right (s ++ r)
  | cons c cs ih =>
    cases s with
    | nil => simp [jsStartsWith] at h
    | cons a as =>
      simp [jsStartsWith] at h ⊢
      exact ⟨h.1, ih as h.2⟩

theorem containsSub_append_right (l sub r : List Char) (h : containsSub l sub = true) :
    containsSub (l ++ r) sub = true := by
  induction l with
  | nil =>
    have hsub : sub = [] := by
      cases sub with
      | nil => rfl
      | cons x xs => simp [containsSub] at h
    subst hsub
    cases r with
    | nil => rfl
    | cons a as => simp [containsSub, jsStartsWith_nil_right]
  | cons a as ih =>
    simp [containsSub] at h ⊢
    rcases h with h | h
    · exact Or.inl (jsStartsWith_append_right _ _ _ h)
    · exact Or.inr (ih h)

theorem dropWhile_noop_of_head (c : Char) (l : List Char) (h : isJsWs c = false) :
    (c :: l).dropWhile isJsWs = c :: l := by
  simp [List.dropWhile_cons, h]

theorem jsTrim_eq_self (s : List Char) (h1 : s.dropWhile isJsWs = s)
    (h2 : s.reverse.dropWhile isJsWs = s.reverse) : jsTrim s = s := by
  unfold jsTrim
  rw [h1, h2, List.reverse_reverse]

theorem string_toList_append (x y : String) : (x ++ y).toList = x.toList ++ y.toList := by
  cases x
  cases y
  rfl

/-! ## C2 — history cap invariant -/

/-- C2: for every sequence of more than 10 history additions (the operation
performed by both `extractReceiptData.fulfilled` and `saveToHistory`), the
resulting stored list is exactly the 10 most recently added records, newest
first, and has length exactly 10 — regardless of the starting list. -/
theorem history_cap_invariant (ds h0 : List ReceiptData) (hlen : 10 < ds.length) :
    ds.foldl (fun h d => addToHistory d h) h0 = ds.reverse.take 10 ∧
    (ds.foldl (fun h d => addToHistory d h) h0).length = 10 := by
  have hne : ds ≠ [] := by
    intro h
    rw [h] at hlen
    simp at hlen
  have hmain : ds.foldl (fun h d => addToHistory d h) h0 = ds.reverse.take 10 := by
    rw [foldl_addToHistory ds h0 hne, List.take_append_eq_append_take]
    have hz : 10 - ds.reverse.length = 0 := by
      rw [List.length_reverse]
      omega
    rw [hz]
    simp
  refine ⟨hmain, ?_⟩
  rw [hmain, List.length_take, List.length_reverse, Nat.min_eq_left (by omega)]

/-- Witness for C2 at a concrete sequence of 11 additions from an empty
list. -/
theorem history_cap_invariant_witness :
    ((List.range 11).map mkRec).foldl (fun h d => addToHistory d h) [] =
      (((List.range 11).map mkRec).reverse).take 10 ∧
    (((List.range 11).map mkRec).foldl (fun h d => addToHistory d h) []).length = 10 :=
  history_cap_invariant ((List.range 11).map mkRec) [] (by simp)

/-! ## C9 — failure frame of the orchestrator -/

/-- C9: when the extraction thunk is rejected, the settled state stores the
error message, clears both loading flags, resets progress to 0, and leaves
the history list and the currentExtraction field exactly as they were before
the attempt. -/
theorem rejected_frame (apiKey : String) (env : ModelEnv) (s : ExtractionState) (e : String)
    (h : runExtractThunk apiKey env = Except.error e) :
    (dispatchExtract apiKey env s).error = some e ∧
    (dispatchExtract apiKey env s).isLoading = false ∧
    (dispatchExtract apiKey env s).isProcessing = false ∧
    (dispatchExtract apiKey env s).progress = 0 ∧
    (dispatchExtract apiKey env s).history = s.history ∧
    (dispatchExtract apiKey env s).currentExtraction = s.currentExtraction := by
  unfold dispatchExtract
  rw [h]
  simp [rejectedReducer, pendingReducer]

/-- Witness for C9: an empty api key makes the thunk reject. -/
theorem rejected_frame_witness :
    (dispatchExtract "" c3Env blankState).error = some "Gemini API key is required" ∧
    (dispatchExtract "" c3Env blankState).isLoading = false ∧
    (dispatchExtract "" c3Env blankState).isProcessing = false ∧
    (dispatchExtract "" c3Env blankState).progress = 0 ∧
    (dispatchExtract "" c3Env blankState).history = blankState.history ∧
    (dispatchExtract "" c3Env blankState).currentExtraction = blankState.currentExtraction :=
  rejected_frame "" c3Env blankState "Gemini API key is required" rfl

/-! ## C7 — concrete currency detection -/

/-- C7: `detectCurrencyFromLocation("123 Main St, Tokyo, Japan")` is `"JPY"`,
and with both arguments undefined the default `"USD"` is returned. -/
theorem detect_currency_examples :
    detectCurrencyFromLocation (some "123 Main St, Tokyo, Japan") none = "JPY" ∧
    detectCurrencyFromLocation none none = "USD" := by
  constructor
  · decide
  · rfl

/-! ## C3 — totalItems is passed through, not derived -/

/-- Counterexample for C3: on a successful extraction whose payload has one
positive-price item of quantity 2 and no explicit `totalItems`, the code
stores `null` as `totalItems`, while the claimed derivation (sum of the
quantities of the positive-price items) yields 2 ≠ null. -/
theorem totalItems_not_derived :
    receiptItemsOf (extractReceiptData c3Env).fst = some c3Items ∧
    receiptTotalItemsOf (extractReceiptData c3Env).fst = some JValue.null ∧
    specDerivedTotalItems c3Items = 2 ∧
    (some JValue.null = some (JValue.num 2) → False) := by
  have hp : (0 : ℚ) < jnumOf (getField c3Item "price") := by
    have he : jnumOf (getField c3Item "price") =
        ((6 : ℕ) : ℚ) + ((0 : ℕ) : ℚ) / 10 ^ (2 : ℕ) := rfl
    rw [he]
    norm_num
  have hq : jnumOf (getField c3Item "quantity") =
      ((2 : ℕ) : ℚ) + ((0 : ℕ) : ℚ) / 10 ^ (0 : ℕ) := rfl
  have hsum : specDerivedTotalItems c3Items = 2 := by
    have hfil : c3Items.filter (fun it => decide (0 < jnumOf (getField it "price")))
        = c3Items := by
      unfold c3Items
      rw [List.filter_cons, decide_eq_true hp]
      simp
    unfold specDerivedTotalItems
    rw [hfil]
    unfold c3Items
    rw [List.map_cons, List.map_nil, List.sum_cons, List.sum_nil, hq]
    norm_num
  refine ⟨rfl, rfl, hsum, ?_⟩
  intro h
  injection h with h1
  exact JValue.noConfusion h1

/-- C3 (amended): when the parsed payload's `totalItems` field is absent or
falsy, the assembled `ReceiptData.totalItems` is `null`; the quantity-summing
derivation is delegated to the model prompt and never performed in code. -/
theorem totalItems_passthrough (env : ModelEnv) (data : JValue) (d : ReceiptData)
    (hb : buildReceipt env data = Except.ok d)
    (ht : (getField data "totalItems").truthy = false) :
    d.totalItems = JValue.null := by
  unfold buildReceipt at hb
  split at hb
  · exact Except.noConfusion hb
  · rename_i items heq
    split at hb
    · exact Except.noConfusion hb
    · injection hb with h
      subst h
      simp [mkReceiptData, jsOr, ht]
  · exact Except.noConfusion hb

/-- Witness for the amended C3 at a concrete payload with an empty items
array and no totalItems field. -/
theorem totalItems_passthrough_witness :
    (mkReceiptData c3Env (JValue.obj [("items", JValue.arr [])]) []).totalItems = JValue.null :=
  totalItems_passthrough c3Env (JValue.obj [("items", JValue.arr [])])
    (mkReceiptData c3Env (JValue.obj [("items", JValue.arr [])]) []) rfl rfl

/-! ## C1 — NOT_RECEIPT stops the pipeline -/

/-- C1: when the validation-stage response contains `NOT_RECEIPT` and not
`VALID_RECEIPT`, `extractReceiptData` returns the not-a-receipt failure and
the second (extraction-stage) model call is never issued. -/
theorem not_receipt_stops_pipeline (env : ModelEnv) (b t : String)
    (hinit : env.initialized = true)
    (hfile : env.fileBase64 = Except.ok b)
    (hval : env.validationResponse = Except.ok (some t))
    (hnot : containsSub (jsTrim t.toList) "NOT_RECEIPT".toList = true)
    (hnov : containsSub (jsTrim t.toList) "VALID_RECEIPT".toList = false) :
    extractReceiptData env = (ApiResponse.failure notReceiptMsg, false) := by
  have hne : ¬ (jsTrim t.data = []) := by
    intro h
    have hh : containsSub (jsTrim t.data) "NOT_RECEIPT".toList = true := hnot
    rw [h] at hh
    exact absurd hh (by decide)
  have hnov2 : containsSub (jsTrim t.data)
      ['V', 'A', 'L', 'I', 'D', '_', 'R', 'E', 'C', 'E', 'I', 'P', 'T'] = false := hnov
  have hnot2 : containsSub (jsTrim t.data)
      ['N', 'O', 'T', '_', 'R', 'E', 'C', 'E', 'I', 'P', 'T'] = true := hnot
  have hvr : validateAttempt env = Except.ok ⟨false, some notReceiptMsg⟩ := by
    unfold validateAttempt
    rw [hinit, hfile, hval]
    simp [hne, hnov2, hnot2]
  unfold extractReceiptData validateReceiptImage
  rw [hinit, hvr]
  simp [notReceiptMsg]

/-- Witness for C1 at a concrete environment whose validation response is
exactly `NOT_RECEIPT`. -/
theorem not_receipt_stops_pipeline_witness :
    extractReceiptData c1Env = (ApiResponse.failure notReceiptMsg, false) :=
  not_receipt_stops_pipeline c1Env "base64bytes" "NOT_RECEIPT" rfl rfl rfl
    (by decide) (by decide)

/-! ## C4 — schema violations fail without touching history -/

theorem getFieldE_ok (v : JValue) (k : String) (h : v ≠ JValue.null) :
    getFieldE v k = Except.ok (getField v k) := by
  cases v with
  | null => exact absurd rfl h
  | bool b => rfl
  | num q => rfl
  | str s => rfl
  | arr es => rfl
  | obj fs => rfl

theorem checkItem_bad (v : JValue) (hn : v ≠ JValue.null) (hb : badItemB v = true) :
    checkItem v = Except.error invalidItemMsg := by
  unfold checkItem
  rw [getFieldE_ok v "name" hn, getFieldE_ok v "price" hn, getFieldE_ok v "quantity" hn]
  unfold badItemB at hb
  cases h1 : isStringJ (getField v "name") with
  | false => simp [h1]
  | true =>
    cases h2 : isStringJ (getField v "price") with
    | false => simp [h1, h2]
    | true =>
      cases h3 : isStringJ (getField v "quantity") with
      | false => simp [h1, h2, h3]
      | true =>
        rw [h1, h2, h3] at hb
        exact absurd hb (by decide)

theorem checkItem_good (v : JValue) (hn : v ≠ JValue.null) (hb : badItemB v = false) :
    checkItem v = Except.ok () := by
  unfold checkItem
  rw [getFieldE_ok v "name" hn, getFieldE_ok v "price" hn, getFieldE_ok v "quantity" hn]
  unfold badItemB at hb
  cases h1 : isStringJ (getField v "name") with
  | false =>
    rw [h1] at hb
    simp at hb
  | true =>
    cases h2 : isStringJ (getField v "price") with
    | false =>
      rw [h1, h2] at hb
      simp at hb
    | true =>
      cases h3 : isStringJ (getField v "quantity") with
      | false =>
        rw [h1, h2, h3] at hb
        simp at hb
      | true => simp [h1, h2, h3]

theorem checkItems_bad (items : List JValue)
    (hnn : ∀ it ∈ items, it ≠ JValue.null)
    (hex : ∃ it ∈ items, badItemB it = true) :
    checkItems items = Except.error invalidItemMsg := by
  induction items with
  | nil => obtain ⟨it, hmem, _⟩ := hex; exact absurd hmem (by simp)
  | cons a l ih =>
    have hna : a ≠ JValue.null := hnn a (by simp)
    cases hba : badItemB a with
    | true =>
      unfold checkItems
      rw [checkItem_bad a hna hba]
    | false =>
      unfold checkItems
      rw [checkItem_good a hna hba]
      apply ih
      · intro it hmem
        exact hnn it (by simp [hmem])
      · obtain ⟨it, hmem, hbit⟩ := hex
        rcases List.mem_cons.mp hmem with heq | hmem2
        · rw [heq] at hbit
          rw [hbit] at hba
          exact absurd hba (by decide)
        · exact ⟨it, hmem2, hbit⟩

theorem env_set_initialized (env : ModelEnv) (h : env.initialized = true) :
    { env with initialized := true } = env := by
  cases env
  simp at h
  simp [h]

/-- Shared: a rejected thunk settles through `rejectedReducer`. -/
theorem dispatchExtract_rejected_eq (apiKey : String) (env : ModelEnv) (s : ExtractionState)
    (e : String) (h : runExtractThunk apiKey env = Except.error e) :
    dispatchExtract apiKey env s = rejectedReducer (pendingReducer s) e := by
  unfold dispatchExtract
  rw [h]

/-- C4: when the extraction-stage response parses to JSON but its `items`
field is missing/non-array, or some (non-null) item has a non-string `name`,
`price` or `quantity`, `extractReceiptData` fails with the corresponding
schema-error message (so no ReceiptData is produced), and the settled
orchestrator state keeps its history unchanged. -/
theorem schema_violation_fails (env : ModelEnv) (apiKey : String) (s : ExtractionState)
    (b tv tx : String) (data : JValue)
    (hkey : apiKey ≠ "")
    (hinit : env.initialized = true)
    (hfile : env.fileBase64 = Except.ok b)
    (hvalr : env.validationResponse = Except.ok (some tv))
    (hvalid : containsSub (jsTrim tv.toList) "VALID_RECEIPT".toList = true)
    (hext : env.extractionResponse = Except.ok (some tx))
    (htx : tx ≠ "")
    (hparse : jsonParse (cleanupChars tx.toList) = some data)
    (hbad : schemaViolation data) :
    (extractReceiptData env = (ApiResponse.failure missingItemsMsg, true) ∨
     extractReceiptData env = (ApiResponse.failure invalidItemMsg, true)) ∧
    (dispatchExtract apiKey env s).history = s.history := by
  have hne : ¬ (jsTrim tv.data = []) := by
    intro h
    have hh : containsSub (jsTrim tv.data)
        ['V', 'A', 'L', 'I', 'D', '_', 'R', 'E', 'C', 'E', 'I', 'P', 'T'] = true := hvalid
    rw [h] at hh
    exact absurd hh (by decide)
  have hvalid2 : containsSub (jsTrim tv.data)
      ['V', 'A', 'L', 'I', 'D', '_', 'R', 'E', 'C', 'E', 'I', 'P', 'T'] = true := hvalid
  have hvr : validateAttempt env = Except.ok ⟨true, none⟩ := by
    unfold validateAttempt
    rw [hinit, hfile, hvalr]
    simp [hne, hvalid2]
  have hbuild : buildReceipt env data = Except.error missingItemsMsg ∨
      buildReceipt env data = Except.error invalidItemMsg := by
    rcases hbad with ⟨v, hgf, hnarr⟩ | ⟨items, hgf, hnn, hex⟩
    · left
      unfold buildReceipt
      rw [hgf]
      cases v with
      | null => rfl
      | bool bb => rfl
      | num q => rfl
      | str ss => rfl
      | arr its => exact absurd rfl (hnarr its)
      | obj fs => rfl
    · right
      unfold buildReceipt
      rw [hgf]
      dsimp only
      rw [checkItems_bad items hnn hex]
  have hea : extractAttempt env = Except.error missingItemsMsg ∨
      extractAttempt env = Except.error invalidItemMsg := by
    unfold extractAttempt
    rw [hext]
    have hparse2 : jsonParse (cleanupChars tx.data) = some data := hparse
    simp [htx, hparse2]
    exact hbuild
  have hfail : extractReceiptData env = (ApiResponse.failure missingItemsMsg, true) ∨
      extractReceiptData env = (ApiResponse.failure invalidItemMsg, true) := by
    unfold extractReceiptData validateReceiptImage
    rw [hinit, hvr, hfile]
    rcases hea with h | h
    · left
      rw [h]
      rfl
    · right
      rw [h]
      rfl
  refine ⟨hfail, ?_⟩
  have henv : ({ env with initialized := true } : ModelEnv) = env :=
    env_set_initialized env hinit
  rcases hfail with h | h
  · have hrun : runExtractThunk apiKey env = Except.error missingItemsMsg := by
      unfold runExtractThunk
      rw [if_neg hkey, henv, h]
      simp [missingItemsMsg]
    rw [dispatchExtract_rejected_eq apiKey env s _ hrun]
    simp [rejectedReducer, pendingReducer]
  · have hrun : runExtractThunk apiKey env = Except.error invalidItemMsg := by
      unfold runExtractThunk
      rw [if_neg hkey, henv, h]
      simp [invalidItemMsg]
    rw [dispatchExtract_rejected_eq apiKey env s _ hrun]
    simp [rejectedReducer, pendingReducer]

/-- Witness for C4 at a concrete environment whose extraction response is
`{"foo":"bar"}` (no items field). -/
theorem schema_violation_fails_witness :
    (extractReceiptData c4Env = (ApiResponse.failure missingItemsMsg, true) ∨
     extractReceiptData c4Env = (ApiResponse.failure invalidItemMsg, true)) ∧
    (dispatchExtract "key" c4Env blankState).history = blankState.history :=
  schema_violation_fails c4Env "key" blankState "base64bytes" "VALID_RECEIPT"
    "\x7b\"foo\":\"bar\"\x7d" (JValue.obj [("foo", JValue.str "bar")])
    (by decide) rfl rfl rfl (by decide) rfl (by decide) rfl
    (Or.inl ⟨JValue.null, rfl, fun _ h => JValue.noConfusion h⟩)

/-! ## C5 — the client never throws past its boundary -/

/-- C5: for every behavior of the external model (thrown call, missing text,
unparsable text, schema violation), `extractReceiptData` is total and returns
a discriminated success/failure value. -/
theorem extract_returns_discriminated (env : ModelEnv) :
    (∃ d b, extractReceiptData env = (ApiResponse.success d, b)) ∨
    (∃ e b, extractReceiptData env = (ApiResponse.failure e, b)) := by
  cases hres : extractReceiptData env with
  | mk r b =>
    cases r with
    | success d => exact Or.inl ⟨d, b, rfl⟩
    | failure e => exact Or.inr ⟨e, b, rfl⟩

/-! ## C8 — code-fence wrapping does not change the parsed object -/

/-- C8: for every (trimmed, non-fenced) JSON text, applying the cleanup to
the text wrapped in ```json or ``` Markdown fences yields exactly the
unwrapped cleanup result, hence the same parsed object. -/
theorem fence_wrapped_parse_eq (t : List Char)
    (htrim : jsTrim t = t)
    (hpre : jsStartsWith t "```".toList = false) :
    cleanupChars ("```json\n".toList ++ t ++ "\n```".toList) = cleanupChars t ∧
    cleanupChars ("```\n".toList ++ t ++ "\n```".toList) = cleanupChars t ∧
    jsonParse (cleanupChars ("```json\n".toList ++ t ++ "\n```".toList)) =
      jsonParse (cleanupChars t) := by
  have hplain : cleanupChars t = t := by
    have hpre7 : jsStartsWith t "```json".toList = false := by
      cases hh : jsStartsWith t "```json".toList with
      | false => rfl
      | true =>
        have hh2 : jsStartsWith t ("```".toList ++ "json".toList) = true := hh
        have hh3 := jsStartsWith_mono t "```".toList "json".toList hh2
        rw [hh3] at hpre
        exact Bool.noConfusion hpre
    have hpre7L : jsStartsWith t ['`', '`', '`', 'j', 's', 'o', 'n'] = false := hpre7
    have hpreL : jsStartsWith t ['`', '`', '`'] = false := hpre
    unfold cleanupChars
    rw [htrim]
    simp [hpre7L, hpreL]
  have hstrip : stripFenceEnd (t ++ "\n```".toList) = t := by
    have hend : jsEndsWith (t ++ "\n```".toList) "\n```".toList = true := by
      unfold jsEndsWith
      rw [List.reverse_append]
      exact jsStartsWith_append "\n```".toList.reverse t.reverse
    have hds : dropSuffix (t ++ "\n```".toList) 4 = t := by
      unfold dropSuffix
      rw [List.reverse_append]
      have h4 : (("\n```".toList.reverse ++ t.reverse).drop 4) = t.reverse := rfl
      rw [h4, List.reverse_reverse]
    have hendL : jsEndsWith (t ++ ['\n', '`', '`', '`']) ['\n', '`', '`', '`'] = true := hend
    have hdsL : dropSuffix (t ++ ['\n', '`', '`', '`']) 4 = t := hds
    unfold stripFenceEnd
    simp [hendL, hdsL]
  have hjson : cleanupChars ("```json\n".toList ++ t ++ "\n```".toList) = t := by
    have e1 : ("```json\n".toList ++ t ++ "\n```".toList : List Char)
        = '`' :: ("``json\n".toList ++ t ++ "\n```".toList) := rfl
    have h1 : ("```json\n".toList ++ t ++ "\n```".toList : List Char).dropWhile isJsWs
        = "```json\n".toList ++ t ++ "\n```".toList := by
      rw [e1]
      exact dropWhile_noop_of_head _ _ (by decide)
    have e2 : ("```json\n".toList ++ t ++ "\n```".toList : List Char).reverse
        = '`' :: ('`' :: ('`' :: ('\n' :: (t.reverse ++ "```json\n".toList.reverse)))) := by
      rw [List.reverse_append, List.reverse_append]
      rfl
    have h2 : ("```json\n".toList ++ t ++ "\n```".toList : List Char).reverse.dropWhile isJsWs
        = ("```json\n".toList ++ t ++ "\n```".toList : List Char).reverse := by
      rw [e2]
      exact dropWhile_noop_of_head _ _ (by decide)
    have htrimw := jsTrim_eq_self _ h1 h2
    have hsw : jsStartsWith ("```json\n".toList ++ t ++ "\n```".toList) "```json".toList
        = true := by
      have ee : ("```json\n".toList ++ t ++ "\n```".toList : List Char)
          = "```json".toList ++ ('\n' :: (t ++ "\n```".toList)) := rfl
      rw [ee]
      exact jsStartsWith_append _ _
    unfold cleanupChars
    rw [htrimw]
    simp only [hsw, if_true]
    have hdrop : ("```json\n".toList ++ t ++ "\n```".toList : List Char).drop 7
        = '\n' :: (t ++ "\n```".toList) := rfl
    rw [hdrop]
    have hnl : dropOneNl ('\n' :: (t ++ "\n```".toList)) = t ++ "\n```".toList := rfl
    rw [hnl, hstrip]
  have hplainfence : cleanupChars ("```\n".toList ++ t ++ "\n```".toList) = t := by
    have e1 : ("```\n".toList ++ t ++ "\n```".toList : List Char)
        = '`' :: ("``\n".toList ++ t ++ "\n```".toList) := rfl
    have h1 : ("```\n".toList ++ t ++ "\n```".toList : List Char).dropWhile isJsWs
        = "```\n".toList ++ t ++ "\n```".toList := by
      rw [e1]
      exact dropWhile_noop_of_head _ _ (by decide)
    have e2 : ("```\n".toList ++ t ++ "\n```".toList : List Char).reverse
        = '`' :: ('`' :: ('`' :: ('\n' :: (t.reverse ++ "```\n".toList.reverse)))) := by
      rw [List.reverse_append, List.reverse_append]
      rfl
    have h2 : ("```\n".toList ++ t ++ "\n```".toList : List Char).reverse.dropWhile isJsWs
        = ("```\n".toList ++ t ++ "\n```".toList : List Char).reverse := by
      rw [e2]
      exact dropWhile_noop_of_head _ _ (by decide)
    have htrimw := jsTrim_eq_self _ h1 h2
    have hsw7 : jsStartsWith ("```\n".toList ++ t ++ "\n```".toList) "```json".toList
        = false := by
      rw [e1]
      rfl
    have hsw3 : jsStartsWith ("```\n".toList ++ t ++ "\n```".toList) "```".toList
        = true := by
      have ee : ("```\n".toList ++ t ++ "\n```".toList : List Char)
          = "```".toList ++ ('\n' :: (t ++ "\n```".toList)) := rfl
      rw [ee]
      exact jsStartsWith_append _ _
    unfold cleanupChars
    rw [htrimw]
    simp only [hsw7, hsw3, if_true, Bool.false_eq_true, if_false]
    have hdrop : ("```\n".toList ++ t ++ "\n```".toList : List Char).drop 3
        = '\n' :: (t ++ "\n```".toList) := rfl
    rw [hdrop]
    have hnl : dropOneNl ('\n' :: (t ++ "\n```".toList)) = t ++ "\n```".toList := rfl
    rw [hnl, hstrip]
  refine ⟨?_, ?_, ?_⟩
  · rw [hjson, hplain]
  · rw [hplainfence, hplain]
  · rw [hjson, hplain]

/-- Witness for C8 at the concrete JSON text `[1, 2]`. -/
theorem fence_wrapped_parse_eq_witness :
    cleanupChars ("```json\n".toList ++ "[1, 2]".toList ++ "\n```".toList) =
      cleanupChars "[1, 2]".toList ∧
    cleanupChars ("```\n".toList ++ "[1, 2]".toList ++ "\n```".toList) =
      cleanupChars "[1, 2]".toList ∧
    jsonParse (cleanupChars ("```json\n".toList ++ "[1, 2]".toList ++ "\n```".toList)) =
      jsonParse (cleanupChars "[1, 2]".toList) :=
  fence_wrapped_parse_eq "[1, 2]".toList (by decide) (by decide)

/-! ## C10 — the CAD pattern is shadowed by the first (USD) pattern -/

/-- C10: any address whose lower-cased text contains "canada", or "ca"
followed by a whitespace character, already matches the first pattern in the
fixed list (mapped to USD), so detection returns "USD" and never "CAD";
"CAD" remains reachable only through inputs like "canadian" that the first
pattern does not match. -/
theorem canada_pattern_shadowed (address : String) (language : Option String)
    (h : containsSub (jsToLower address).toList "canada".toList = true ∨
         jsWsChars.any
           (fun w => containsSub (jsToLower address).toList ("ca".toList ++ [w])) = true) :
    detectCurrencyFromLocation (some address) language = "USD" ∧
    detectCurrencyFromLocation (some "canadian") none = "CAD" := by
  refine ⟨?_, by decide⟩
  have haddr : (address == "") = false := by
    cases hb : address == "" with
    | false => rfl
    | true =>
      have he : address = "" := eq_of_beq hb
      subst he
      rcases h with h | h
      · exact absurd h (by decide)
      · exact absurd h (by decide)
  have hsplit : ((jsToLower address ++ " ") ++ jsToLower (language.getD "")).toList
      = (jsToLower address).toList ++ (' ' :: (jsToLower (language.getD "")).toList) := by
    rw [string_toList_append, string_toList_append, List.append_assoc]
    rfl
  have hmatch : matchesPattern
      ((jsToLower address).toList ++ (' ' :: (jsToLower (language.getD "")).toList))
      [("usa", false), ("united states", false), ("america", false), ("us", true),
       ("u.s.", false), ("canada", false), ("ca", true)] = true := by
    unfold matchesPattern
    rw [List.any_eq_true]
    rcases h with h | h
    · refine ⟨("canada", false), by simp, ?_⟩
      unfold matchAlt
      simp only [Bool.false_eq_true, if_false]
      exact containsSub_append_right _ _ _ h
    · rw [List.any_eq_true] at h
      obtain ⟨w, hw, hcw⟩ := h
      refine ⟨("ca", true), by simp, ?_⟩
      unfold matchAlt
      simp only [if_true]
      rw [List.any_eq_true]
      exact ⟨w, hw, containsSub_append_right _ _ _ hcw⟩
  unfold detectCurrencyFromLocation
  simp only [jsFalsyStrOpt, haddr, Bool.false_and, Bool.false_eq_true, if_false]
  show firstMatch currencyPatterns
    ((jsToLower address ++ " ") ++ jsToLower (language.getD "")).toList = "USD"
  rw [hsplit]
  unfold currencyPatterns firstMatch
  rw [hmatch]
  rfl

/-- Witness for C10 at the concrete address "Toronto, Canada". -/
theorem canada_pattern_shadowed_witness :
    detectCurrencyFromLocation (some "Toronto, Canada") none = "USD" ∧
    detectCurrencyFromLocation (some "canadian") none = "CAD" :=
  canada_pattern_shadowed "Toronto, Canada" none (Or.inl (by decide))

/-! ## C6 — formatCurrency: total, N/A exactly on NaN, two fraction digits,
USD fallback -/

theorem digitChar_isDigit (n : Nat) : (digitChar n).isDigit = true := by
  unfold digitChar
  split <;> decide

theorem natToCharsAux_digits (fuel : Nat) : ∀ (n : Nat) (c : Char),
    c ∈ natToCharsAux fuel n → c.isDigit = true := by
  induction fuel with
  | zero =>
    intro n c h
    simp [natToCharsAux] at h
  | succ f ih =>
    intro n c h
    unfold natToCharsAux at h
    by_cases hn : n = 0
    · simp [hn] at h
    · rw [if_neg hn] at h
      rcases List.mem_append.mp h with h2 | h2
      · exact ih _ _ h2
      · rw [List.mem_singleton] at h2
        rw [h2]
        exact digitChar_isDigit _

theorem natToChars_digits (n : Nat) (c : Char) (h : c ∈ natToChars n) :
    c.isDigit = true := by
  unfold natToChars at h
  by_cases hn : n = 0
  · rw [if_pos hn, List.mem_singleton] at h
    rw [h]
    decide
  · rw [if_neg hn] at h
    exact natToCharsAux_digits _ _ _ h

theorem ratToMoneyChars_split (q : ℚ) :
    ∃ pre d1 d2, ratToMoneyChars q = pre ++ ['.', d1, d2] ∧
      d1.isDigit = true ∧ d2.isDigit = true ∧ ('.' : Char) ∉ pre := by
  refine ⟨(if (round (q * 100) : ℤ) < 0 then ['-'] else [])
      ++ natToChars ((round (q * 100)).natAbs / 100),
    digitChar ((round (q * 100)).natAbs % 100 / 10),
    digitChar ((round (q * 100)).natAbs % 10), ?_,
    digitChar_isDigit _, digitChar_isDigit _, ?_⟩
  · unfold ratToMoneyChars
    rw [List.append_assoc]
  · intro hmem
    rcases List.mem_append.mp hmem with h2 | h2
    · by_cases hlt : (round (q * 100) : ℤ) < 0
      · rw [if_pos hlt] at h2
        simp at h2
      · rw [if_neg hlt] at h2
        simp at h2
    · have hd := natToChars_digits _ _ h2
      exact absurd hd (by decide)

/-- In the non-NaN case the result is the (upper-cased or fallback-USD)
currency code, a space, and the two-fraction-digit money rendering. -/
theorem formatCurrencyChars_val (a : JSAmount) (c : String) (q : ℚ)
    (hq : coerceAmount a = JSNum.val q) :
    (isWellFormedCurrency (jsToUpper c) = true ∧
     formatCurrencyChars a c = (jsToUpper c).toList ++ ' ' :: ratToMoneyChars q) ∨
    (isWellFormedCurrency (jsToUpper c) = false ∧
     formatCurrencyChars a c = "USD".toList ++ ' ' :: ratToMoneyChars q) := by
  unfold formatCurrencyChars
  rw [hq]
  cases hw : isWellFormedCurrency (jsToUpper c) with
  | true =>
    left
    refine ⟨rfl, ?_⟩
    unfold intlFormatCC
    rw [hw]
    rfl
  | false =>
    right
    refine ⟨rfl, ?_⟩
    unfold intlFormatCC
    rw [hw]
    rfl

theorem isWellFormedCurrency_parts (s : String) (h : isWellFormedCurrency s = true) :
    s.toList.length = 3 ∧ ∀ x ∈ s.toList, x.isAlpha = true := by
  unfold isWellFormedCurrency at h
  rw [Bool.and_eq_true] at h
  refine ⟨?_, List.all_eq_true.mp h.2⟩
  have hl : s.length = 3 := eq_of_beq h.1
  exact hl

/-- C6: `formatCurrency` never throws; it returns `"N/A"` exactly when the
coerced amount is NaN, otherwise a currency string with exactly two digits
after the (unique) decimal point, re-formatted as USD when the formatting
primitive rejects the currency code. -/
theorem formatCurrency_spec (a : JSAmount) (c : String) :
    (formatCurrency a c = "N/A" ↔ coerceAmount a = JSNum.nan) ∧
    (∀ q : ℚ, coerceAmount a = JSNum.val q →
      (∃ p d1 d2, formatCurrencyChars a c = p ++ ['.', d1, d2] ∧
        d1.isDigit = true ∧ d2.isDigit = true ∧ ('.' : Char) ∉ p) ∧
      (isWellFormedCurrency (jsToUpper c) = false →
        formatCurrencyChars a c = "USD".toList ++ ' ' :: ratToMoneyChars q)) := by
  have hval : ∀ q : ℚ, coerceAmount a = JSNum.val q →
      (∃ p d1 d2, formatCurrencyChars a c = p ++ ['.', d1, d2] ∧
        d1.isDigit = true ∧ d2.isDigit = true ∧ ('.' : Char) ∉ p) ∧
      (isWellFormedCurrency (jsToUpper c) = false →
        formatCurrencyChars a c = "USD".toList ++ ' ' :: ratToMoneyChars q) := by
    intro q hq
    obtain ⟨pre, d1, d2, hsplit, hd1, hd2, hnp⟩ := ratToMoneyChars_split q
    rcases formatCurrencyChars_val a c q hq with ⟨hw, heq⟩ | ⟨hw, heq⟩
    · constructor
      · refine ⟨(jsToUpper c).toList ++ ' ' :: pre, d1, d2, ?_, hd1, hd2, ?_⟩
        · rw [heq, hsplit, List.append_assoc, List.cons_append]
        · intro hmem
          rcases List.mem_append.mp hmem with h2 | h2
          · have ha := (isWellFormedCurrency_parts _ hw).2 _ h2
            exact absurd ha (by decide)
          · rcases List.mem_cons.mp h2 with h3 | h3
            · exact absurd h3 (by decide)
            · exact hnp h3
      · intro hfw
        rw [hfw] at hw
        exact Bool.noConfusion hw
    · constructor
      · refine ⟨"USD".toList ++ ' ' :: pre, d1, d2, ?_, hd1, hd2, ?_⟩
        · rw [heq, hsplit, List.append_assoc, List.cons_append]
        · intro hmem
          rcases List.mem_append.mp hmem with h2 | h2
          · simp at h2
          · rcases List.mem_cons.mp h2 with h3 | h3
            · exact absurd h3 (by decide)
            · exact hnp h3
      · intro _
        exact heq
  refine ⟨?_, hval⟩
  constructor
  · intro hNA
    cases hc : coerceAmount a with
    | nan => rfl
    | val q =>
      exfalso
      have hlist : formatCurrencyChars a c = ['N', '/', 'A'] := by
        have hmk : String.mk (formatCurrencyChars a c) = String.mk ['N', '/', 'A'] := hNA
        injection hmk
      have hlen : (formatCurrencyChars a c).length = 3 := by
        rw [hlist]
        rfl
      obtain ⟨pre, e1, e2, hms, _, _, _⟩ := ratToMoneyChars_split q
      rcases formatCurrencyChars_val a c q hc with ⟨hw, heq⟩ | ⟨hw, heq⟩
      · have h3 := (isWellFormedCurrency_parts _ hw).1
        rw [heq, hms] at hlen
        simp [List.length_append] at hlen
        omega
      · rw [heq, hms] at hlen
        simp [List.length_append] at hlen
  · intro hnan
    unfold formatCurrency formatCurrencyChars
    rw [hnan]

/-- Witness for C6: a NaN string amount gives N/A; a rational amount gives a
two-fraction-digit rendering; an ill-formed code falls back to USD. -/
theorem formatCurrency_spec_witness :
    formatCurrency (JSAmount.str "abc") "USD" = "N/A" ∧
    (∃ p d1 d2, formatCurrencyChars (JSAmount.num (JSNum.val (5 / 4))) "usd"
        = p ++ ['.', d1, d2] ∧
      d1.isDigit = true ∧ d2.isDigit = true ∧ ('.' : Char) ∉ p) ∧
    formatCurrencyChars (JSAmount.num (JSNum.val 1)) "XX"
      = "USD".toList ++ ' ' :: ratToMoneyChars 1 :=
  ⟨(formatCurrency_spec (JSAmount.str "abc") "USD").1.mpr rfl,
   ((formatCurrency_spec (JSAmount.num (JSNum.val (5 / 4))) "usd").2 (5 / 4) rfl).1,
   ((formatCurrency_spec (JSAmount.num (JSNum.val 1)) "XX").2 1 rfl).2 (by decide)⟩
